import Mathlib

/-!
Verification of the trmnl-mbta prediction-reconciliation and delivery pipeline.

The development shallowly embeds the Python sources:
* `src/src/mbta/display.py` — `process_predictions` (the reconciler),
  `calculate_prediction_hash` (change detection), `TRMNLRateLimiter`;
* `src/src/mbta/main.py` — `update_trmnl_display` (delivery with
  exponential backoff).

Modelling conventions:
* Timestamps (Python timezone-aware `datetime`s obtained from
  `datetime.fromisoformat`) are modelled as natural numbers counting seconds
  from an epoch that falls on a local midnight; a single uniform UTC offset is
  assumed for all data in one call, so absolute order and local rendering agree.
* The display string produced by `dt.strftime("%I:%M %p")` is a function of the
  minute of the local day only; it is modelled by the structure `TimeStr`
  holding exactly the information the string carries (12-hour value, minute,
  AM/PM flag).  `strptime(s, "%I:%M %p")` is the partial inverse
  `timeStrToMin`.
* Python dict/set state is modelled by functions and lists: the stop-name
  cache `_stop_info_cache.get(stop_id, "Unknown Stop")` becomes a total
  function `cache : String → String` (ids that would miss the cache map to
  "Unknown Stop"), and the `seen_times` set becomes the list of strings
  retained so far (only membership is ever queried).
* Network collaborators (`get_scheduled_times`, `get_bus_stop_order`) are
  parameters `schedOf`, `busOrder` giving the data they would return.
-/

namespace TrmnlMbta

/-- Absolute time in seconds; the epoch lies on a local midnight. -/
abbrev Time := Nat

/-- Information content of a `"%I:%M %p"` display string: `hour12` is the
rendered 12-hour figure (1..12), `minute` the minute, `pm` the AM/PM flag. -/
structure TimeStr where
  hour12 : Nat
  minute : Nat
  pm : Bool
deriving DecidableEq

/-- `dt.strftime("%I:%M %p")` applied to a minute-of-day `m` (0..1439):
hour 0 renders as 12 AM, hour 12 as 12 PM, etc. -/
def strftimeIMp (m : Nat) : TimeStr :=
  { hour12 := if m / 60 % 12 = 0 then 12 else m / 60 % 12
    minute := m % 60
    pm := decide (12 ≤ m / 60) }

/-- `datetime.strptime(s, "%I:%M %p")` reduced to the minute of day it
determines. -/
def timeStrToMin (s : TimeStr) : Nat :=
  ((if s.pm then 12 else 0) + s.hour12 % 12) * 60 + s.minute

/-- Minute of the (local) day of an absolute time. -/
def minuteOfDay (t : Time) : Nat := t / 60 % 1440

/-- Display string of an absolute time, as produced by
`datetime.fromisoformat(...).strftime("%I:%M %p")`. -/
def fmtTime (t : Time) : TimeStr := strftimeIMp (minuteOfDay t)

/-- Midnight of the (local) day containing `t`; models
`time_obj.replace(year=..., month=..., day=...)` with the date taken from a
reference timestamp. -/
def dayStart (t : Time) : Time := t / 86400 * 86400

/-- `src/src/mbta/models.py` — `Prediction`.  Optional ISO timestamp strings
become `Option Time`; the empty string, which every consumer of these fields
treats exactly like `None` (Python truthiness), is identified with `none`. -/
structure Prediction where
  route_id : String
  stop_id : String
  arrival_time : Option Time
  departure_time : Option Time
  direction_id : Nat
  status : Option String
deriving DecidableEq

/-- The fields of a scheduled-departure JSON object that
`process_predictions` reads: `relationships.stop.data.id`,
`attributes.departure_time` and `attributes.direction_id`. -/
structure Schedule where
  stop_id : String
  departure_time : Option Time
  direction_id : Nat
deriving DecidableEq

/-- One reconciled output stop: the synthetic key `"stop_<idx>"`, the resolved
stop name, and the per-direction display lists. -/
structure ReconStop where
  stop_id : String
  stop_name : String
  inbound : List TimeStr
  outbound : List TimeStr
deriving DecidableEq

/-- Modelled from the spec: `MAX_PREDICTIONS_PER_DIRECTION` is imported by
`display.py` from `src/src/mbta/constants.py` but its definition is absent
from the sources; the spec fixes K = 3, matching the in-line comments
("3 predictions each direction") and the hard-coded 3 in `main.py`. -/
def MAX_PREDICTIONS_PER_DIRECTION : Nat := 3

/-- `constants.py` — `STOP_ORDER["Orange"]`. -/
def orangeStops : List String :=
  ["Oak Grove", "Malden Center", "Wellington", "Assembly", "Sullivan Square",
   "Community College", "North Station", "Haymarket", "State",
   "Downtown Crossing", "Chinatown", "Tufts Medical Center", "Back Bay",
   "Massachusetts Avenue", "Ruggles", "Roxbury Crossing", "Jackson Square",
   "Stony Brook", "Green Street", "Forest Hills"]

/-- `constants.py` — `STOP_ORDER["Red"]`. -/
def redStops : List String :=
  ["Alewife", "Davis", "Porter", "Harvard", "Central", "Kendall/MIT",
   "Charles/MGH", "Park Street", "Downtown Crossing", "South Station",
   "Broadway", "Andrew", "JFK/UMass", "Savin Hill", "Fields Corner",
   "Shawmut", "Ashmont", "North Quincy", "Wollaston", "Quincy Center",
   "Quincy Adams", "Braintree"]

/-- `constants.py` — `STOP_ORDER["Blue"]`. -/
def blueStops : List String :=
  ["Wonderland", "Revere Beach", "Beachmont", "Suffolk Downs",
   "Orient Heights", "Wood Island", "Airport", "Maverick", "Bowdoin",
   "Government Center", "State", "Aquarium", "Maverick"]

/-- `constants.py` — the `STOP_ORDER` dict, as a lookup. -/
def STOP_ORDER (route : String) : Option (List String) :=
  if route = "Orange" then some orangeStops
  else if route = "Red" then some redStops
  else if route = "Blue" then some blueStops
  else none

/-- `display.py:362-367` — predefined order for subway lines, otherwise the
dynamically fetched bus stop order (a collaborator, passed in as `busOrder`). -/
def stopOrderFor (busOrder : String → List String) (route : String) :
    List String :=
  match STOP_ORDER route with
  | some l => l
  | none => busOrder route

/-- `display.py:276` — `predictions[0].route_id if predictions else "Orange"`. -/
def routeFor : List Prediction → String
  | [] => "Orange"
  | p :: _ => p.route_id

/-- `display.py:318` — `pred.departure_time or pred.arrival_time`. -/
def firstTime (p : Prediction) : Option Time :=
  match p.departure_time with
  | some t => some t
  | none => p.arrival_time

/-- `display.py:315-330` — the bucket `stop_times[stopName][direction]`: the
display strings of the predictions that carry a time, resolve to `stopName`
(and not to "Unknown Stop"), and match the direction
(`direction_id == 0` ↔ outbound), in input order. -/
def groupedTimes (cache : String → String) (preds : List Prediction)
    (stopName : String) (isOutbound : Bool) : List TimeStr :=
  (preds.filter (fun p =>
      (firstTime p).isSome && cache p.stop_id != "Unknown Stop"
        && cache p.stop_id == stopName
        && ((p.direction_id == 0) == isOutbound))).map
    (fun p => fmtTime ((firstTime p).getD 0))

/-- `display.py:395-399` — the departure time of `scheduled_times[0]`, used to
re-date the real-time display strings. -/
def firstSchedDep : List Schedule → Option Time
  | [] => none
  | s :: _ => s.departure_time

/-- `display.py:387-419` — the real-time collection loop for one bucket.
Each display string is re-parsed and placed on the date of the first scheduled
departure (`t0`), past times (`time_obj <= current_time`) are skipped, and
duplicates are skipped via the `seen_times` set (here: the list `seen`).
The `except ValueError` branch is unreachable because every bucket string was
produced by `strftime("%I:%M %p")`. -/
def collectReal (t0 now : Time) : List TimeStr → List TimeStr →
    List (Time × TimeStr)
  | [], _ => []
  | s :: rest, seen =>
    if dayStart t0 + 60 * timeStrToMin s ≤ now then
      collectReal t0 now rest seen
    else if s ∈ seen then
      collectReal t0 now rest seen
    else
      (dayStart t0 + 60 * timeStrToMin s, s) :: collectReal t0 now rest (s :: seen)

/-- `display.py:434-470` — the scheduled-backfill loop for one bucket: keep a
schedule entry if it has a departure time, a non-empty stop id resolving to
this bucket's stop name, the right direction, a display string not already
seen, a time strictly in the future, and (when live entries exist) a time
strictly after the latest live time.  The `latest_real_time.tzinfo is None`
branch of the source is unreachable: live comparison keys are always
re-dated with the schedule's timezone. -/
def collectSched (cache : String → String) (now : Time) (stopName : String)
    (isOutbound : Bool) (latest : Option Time) : List Schedule →
    List TimeStr → List (Time × TimeStr)
  | [], _ => []
  | sch :: rest, seen =>
    match sch.departure_time with
    | none => collectSched cache now stopName isOutbound latest rest seen
    | some d =>
      if sch.stop_id = "" then
        collectSched cache now stopName isOutbound latest rest seen
      else if cache sch.stop_id ≠ stopName then
        collectSched cache now stopName isOutbound latest rest seen
      else if ((sch.direction_id == 0) = isOutbound) ∧ fmtTime d ∉ seen then
        if d ≤ now then
          collectSched cache now stopName isOutbound latest rest seen
        else
          match latest with
          | none =>
            (d, fmtTime d) :: collectSched cache now stopName isOutbound latest rest (fmtTime d :: seen)
          | some lrt =>
            if lrt < d then
              (d, fmtTime d) :: collectSched cache now stopName isOutbound latest rest (fmtTime d :: seen)
            else
              collectSched cache now stopName isOutbound latest rest seen
      else
        collectSched cache now stopName isOutbound latest rest seen

/-- The sort key relation used by `sorted(..., key=lambda x: x[0])`. -/
def timeLe (a b : Time × TimeStr) : Prop := a.1 ≤ b.1

instance : DecidableRel timeLe := fun a b => Nat.decLe a.1 b.1

instance : IsTotal (Time × TimeStr) timeLe :=
  ⟨fun a b => Nat.le_total a.1 b.1⟩

instance : IsTrans (Time × TimeStr) timeLe :=
  ⟨fun _ _ _ h h2 => Nat.le_trans h h2⟩

/-- `sorted(pairs, key=lambda x: x[0])`: a stable sort by the datetime key.
Insertion sort is stable, so it agrees with Python's sort. -/
def sortByTime (l : List (Time × TimeStr)) : List (Time × TimeStr) :=
  List.insertionSort timeLe l

/-- `display.py:378-482` — the body of the per-(stop, direction) loop of
`process_predictions`, at the level of (comparison key, display string) pairs;
the emitted display list is the second projection (`processDirection`).
Returns `none` exactly when the source raises: with a live entry to process
but no first scheduled departure to take a date from, the naive
`strptime` result is compared against the aware `current_time`, a
`TypeError` in Python. -/
def combineDirection (cache : String → String) (scheds : List Schedule)
    (now : Time) (stopName : String) (isOutbound : Bool)
    (realPairs : List (Time × TimeStr)) : List (Time × TimeStr) :=
  let sortedReal := sortByTime realPairs
  let latest := sortedReal.getLast?.map (·.1)
  let seen := realPairs.map (·.2)
  let sortedSched :=
    sortByTime (collectSched cache now stopName isOutbound latest scheds seen)
  let combined :=
    if sortedReal.length < MAX_PREDICTIONS_PER_DIRECTION then
      sortedReal ++
        sortedSched.take (MAX_PREDICTIONS_PER_DIRECTION - sortedReal.length)
    else sortedReal
  combined.take MAX_PREDICTIONS_PER_DIRECTION

/-- The per-(stop, direction) loop body split on how the real-time strings
are re-dated; see `combineDirection` for the shared tail. -/
def directionPairs (cache : String → String) (scheds : List Schedule)
    (now : Time) (realStrs : List TimeStr) (stopName : String)
    (isOutbound : Bool) : Option (List (Time × TimeStr)) :=
  match firstSchedDep scheds, realStrs with
  | none, _ :: _ => none
  | some t0, _ =>
    some (combineDirection cache scheds now stopName isOutbound
      (collectReal t0 now realStrs []))
  | none, [] =>
    some (combineDirection cache scheds now stopName isOutbound [])

/-- The display strings actually emitted for one (stop, direction):
`stop_predictions[stop_id][direction]`. -/
def processDirection (cache : String → String) (scheds : List Schedule)
    (now : Time) (realStrs : List TimeStr) (stopName : String)
    (isOutbound : Bool) : Option (List TimeStr) :=
  (directionPairs cache scheds now realStrs stopName isOutbound).map
    (fun ps => ps.map (·.2))

/-- `display.py:371-487` — the loop over `ordered_stops[:12]`, building
`stop_names` and `stop_predictions`; `i` is the running `stop_idx`. -/
def buildStops (cache : String → String) (scheds : List Schedule) (now : Time)
    (preds : List Prediction) : Nat → List String → Option (List ReconStop)
  | _, [] => some []
  | i, name :: rest => do
    let inb ← processDirection cache scheds now
      (groupedTimes cache preds name false) name false
    let outb ← processDirection cache scheds now
      (groupedTimes cache preds name true) name true
    let tail ← buildStops cache scheds now preds (i + 1) rest
    pure ({ stop_id := "stop_" ++ toString i, stop_name := name,
            inbound := inb, outbound := outb } :: tail)

/-- `display.py:268-487` — `process_predictions`.  `cache` is the state of
`_stop_info_cache` after the gather phase (lookup with default
"Unknown Stop"), `schedOf` the scheduled times the MBTA API returns per
route, `busOrder` the dynamic bus stop order, `now` the evaluation instant
`datetime.now().astimezone()`.  `none` models an uncaught exception. -/
def process_predictions (cache : String → String)
    (schedOf : String → List Schedule) (busOrder : String → List String)
    (now : Time) (preds : List Prediction) : Option (List ReconStop) :=
  buildStops cache (schedOf (routeFor preds)) now preds 0
    ((stopOrderFor busOrder (routeFor preds)).take 12)

/-! ### Change detection — `display.py:490-497` / `cli.py:34-41`,
`calculate_prediction_hash` -/

/-- The sorted key type: Python compares the tuples
`(route_id, stop_id, departure or "", arrival or "", direction_id)`
lexicographically; `""` sorts below every timestamp string, so the
third and fourth components live in `WithBot`. -/
abbrev PredKey :=
  String ×ₗ String ×ₗ WithBot Nat ×ₗ WithBot Nat ×ₗ Nat

/-- `pred.departure_time or ""` as a sort-key component. -/
def optBot : Option Nat → WithBot Nat
  | none => ⊥
  | some t => (t : WithBot Nat)

/-- The tuple built for one prediction by `calculate_prediction_hash`. -/
def predKey (p : Prediction) : PredKey :=
  toLex (p.route_id, toLex (p.stop_id, toLex (optBot p.departure_time,
    toLex (optBot p.arrival_time, p.direction_id))))

/-- The `prediction_tuples` local of `calculate_prediction_hash`: the sorted
list of `(route_id, stop_id, departure or "", arrival or "", direction_id)`
tuples, the value whose `str` is fed to `hash`. -/
def prediction_tuples (preds : List Prediction) : List PredKey :=
  List.insertionSort (· ≤ ·) (preds.map predKey)

/-- CPython's `hash` of a `str` takes at most `2 ^ 64` distinct values
(a signed 64-bit word, with `-1` additionally avoided); `Fin PyHashSpace`
over-approximates its range, which is conservative wherever the bound is
used to produce collisions. -/
def PyHashSpace : Nat := 2 ^ 64

/-- `calculate_prediction_hash`: `hash(str(prediction_tuples))`.  `str` is
injective on sorted tuple lists, so the composite `hash ∘ str` is some fixed
but unknown (seed-dependent) function from the canonical sorted tuple list
into the 64-bit hash space; the model is parameterised by that function
`hashFn`. -/
def calculate_prediction_hash (hashFn : List PredKey → Fin PyHashSpace)
    (preds : List Prediction) : Fin PyHashSpace :=
  hashFn (prediction_tuples preds)

/-! ### Delivery rate limiter — `display.py:14-52`, `TRMNLRateLimiter` -/

/-- `now.replace(minute=0, second=0, microsecond=0)`: the hour boundary at or
before `t`. -/
def hourStartOf (t : Time) : Time := t / 3600 * 3600

/-- The mutable fields of `TRMNLRateLimiter`. -/
structure TRMNLRateLimiter where
  max_updates_per_hour : Nat
  updates_this_hour : Nat
  hour_start : Time
  min_interval_seconds : Nat
  last_update_time : Option Time
deriving DecidableEq

/-- `TRMNLRateLimiter.__init__` (default `max_updates_per_hour = 12`);
`min_interval_seconds = 3600 // max_updates_per_hour`. -/
def TRMNLRateLimiter.init (maxPerHour : Nat) (now : Time) : TRMNLRateLimiter :=
  { max_updates_per_hour := maxPerHour
    updates_this_hour := 0
    hour_start := hourStartOf now
    min_interval_seconds := 3600 / maxPerHour
    last_update_time := none }

/-- `display.py:26-32` — the new-hour reset at the top of `can_update`. -/
def TRMNLRateLimiter.rollover (st : TRMNLRateLimiter) (now : Time) :
    TRMNLRateLimiter :=
  if st.hour_start < hourStartOf now then
    { st with updates_this_hour := 0, hour_start := hourStartOf now,
              last_update_time := none }
  else st

/-- `display.py:22-46` — `can_update`; returns the boolean together with the
(possibly rolled-over) state the method leaves behind.  The elapsed time
`(now - last).total_seconds()` is compared in `Int` to keep the sign. -/
def TRMNLRateLimiter.can_update (st : TRMNLRateLimiter) (now : Time) :
    Bool × TRMNLRateLimiter :=
  if (st.rollover now).max_updates_per_hour ≤
      (st.rollover now).updates_this_hour then (false, st.rollover now)
  else
    match (st.rollover now).last_update_time with
    | some l =>
      if (now : Int) - (l : Int) <
          ((st.rollover now).min_interval_seconds : Int) then
        (false, st.rollover now)
      else (true, st.rollover now)
    | none => (true, st.rollover now)

/-- `display.py:48-52` — `record_update`. -/
def TRMNLRateLimiter.record_update (st : TRMNLRateLimiter) (now : Time) :
    TRMNLRateLimiter :=
  { st with updates_this_hour := st.updates_this_hour + 1,
            last_update_time := some now }

/-! ### Display publisher retry loop — `main.py:390-448`,
`update_trmnl_display` -/

/-- Outcome of one POST to the TRMNL webhook.  A 429 carries
`some (some n)` when a Retry-After header is present and `int()` parses it,
`some none` when present but unparseable, `none` when absent.
`otherStatus` is any other non-200 status and `exn` a transport exception;
the source treats them identically. -/
inductive TRMNLResponse where
  | ok : TRMNLResponse
  | tooManyRequests (retryAfter : Option (Option Int)) : TRMNLResponse
  | otherStatus : TRMNLResponse
  | exn : TRMNLResponse
deriving DecidableEq

/-- Result of the delivery loop: how many attempts were made and which sleeps
(`await asyncio.sleep(delay)`) happened, in order. -/
inductive SendOutcome where
  | succeeded (attemptsMade : Nat) (sleeps : List Int) : SendOutcome
  | failed (attemptsMade : Nat) (sleeps : List Int) : SendOutcome
deriving DecidableEq

/-- Attempt count of an outcome. -/
def SendOutcome.attempts : SendOutcome → Nat
  | .succeeded n _ => n
  | .failed n _ => n

/-- Sleep sequence of an outcome. -/
def SendOutcome.sleeps : SendOutcome → List Int
  | .succeeded _ s => s
  | .failed _ s => s

/-- `min(base_delay * (2 ** attempt), max_delay)` with `base_delay = 1`,
`max_delay = 900`. -/
def backoffDelay (attempt : Nat) : Int := min ((1 : Int) * 2 ^ attempt) 900

/-- `main.py:396-444` — the `while attempt < max_attempts` body with
`max_attempts = 5`; the first argument is the remaining fuel
`max_attempts - attempt`.  A sleep is recorded only when
`attempt < max_attempts - 1`, mirroring the source. -/
def sendAttempts (resp : Nat → TRMNLResponse) :
    Nat → Nat → List Int → SendOutcome
  | 0, attempt, sleeps => .failed attempt sleeps
  | remaining + 1, attempt, sleeps =>
    match resp attempt with
    | .ok => .succeeded (attempt + 1) sleeps
    | .tooManyRequests ra =>
      let delay :=
        match ra with
        | some (some n) => n
        | some none => backoffDelay attempt
        | none => backoffDelay attempt
      sendAttempts resp remaining (attempt + 1)
        (if attempt < 5 - 1 then sleeps ++ [delay] else sleeps)
    | .otherStatus =>
      sendAttempts resp remaining (attempt + 1)
        (if attempt < 5 - 1 then sleeps ++ [backoffDelay attempt] else sleeps)
    | .exn =>
      sendAttempts resp remaining (attempt + 1)
        (if attempt < 5 - 1 then sleeps ++ [backoffDelay attempt] else sleeps)

/-- `main.py:390-448` — `update_trmnl_display`, abstracted over the response
each attempt receives. -/
def update_trmnl_display (resp : Nat → TRMNLResponse) : SendOutcome :=
  sendAttempts resp 5 0 []

/-! ### Concrete fixtures used to instantiate the theorems -/

/-- A stop-name cache resolving the single stop id "oak". -/
def cacheB : String → String :=
  fun s => if s = "oak" then "Oak Grove" else "Unknown Stop"

/-- Scheduled departures for scenario B: outbound 10:00, 10:15, 10:30
(36000 s, 36900 s, 37800 s after the epoch midnight) at stop "oak" on the
Orange line. -/
def schedOfB : String → List Schedule := fun r =>
  if r = "Orange" then
    [{ stop_id := "oak", departure_time := some 36000, direction_id := 0 },
     { stop_id := "oak", departure_time := some 36900, direction_id := 0 },
     { stop_id := "oak", departure_time := some 37800, direction_id := 0 }]
  else []

/-- No dynamic bus orders are needed by the fixtures. -/
def busOrderB : String → List String := fun _ => []

/-- The expected scenario-B output: the first 12 Orange stops, with
10:00 AM, 10:15 AM, 10:30 AM outbound at Oak Grove and nothing else. -/
def scenarioBOut : List ReconStop :=
  [{ stop_id := "stop_0", stop_name := "Oak Grove", inbound := [],
     outbound := [⟨10, 0, false⟩, ⟨10, 15, false⟩, ⟨10, 30, false⟩] },
   { stop_id := "stop_1", stop_name := "Malden Center", inbound := [], outbound := [] },
   { stop_id := "stop_2", stop_name := "Wellington", inbound := [], outbound := [] },
   { stop_id := "stop_3", stop_name := "Assembly", inbound := [], outbound := [] },
   { stop_id := "stop_4", stop_name := "Sullivan Square", inbound := [], outbound := [] },
   { stop_id := "stop_5", stop_name := "Community College", inbound := [], outbound := [] },
   { stop_id := "stop_6", stop_name := "North Station", inbound := [], outbound := [] },
   { stop_id := "stop_7", stop_name := "Haymarket", inbound := [], outbound := [] },
   { stop_id := "stop_8", stop_name := "State", inbound := [], outbound := [] },
   { stop_id := "stop_9", stop_name := "Downtown Crossing", inbound := [], outbound := [] },
   { stop_id := "stop_10", stop_name := "Chinatown", inbound := [], outbound := [] },
   { stop_id := "stop_11", stop_name := "Tufts Medical Center", inbound := [], outbound := [] }]

/-- A prediction whose stop id resolves to no display name under `cacheB`. -/
def pUnknown : Prediction :=
  { route_id := "Orange", stop_id := "zzz", arrival_time := some 36000,
    departure_time := some 36000, direction_id := 0, status := none }

/-- A sample prediction. -/
def predA : Prediction :=
  { route_id := "Orange", stop_id := "oak", arrival_time := some 100,
    departure_time := some 160, direction_id := 0, status := none }

/-- A second, different sample prediction. -/
def predB : Prediction :=
  { route_id := "Orange", stop_id := "mal", arrival_time := none,
    departure_time := some 220, direction_id := 1, status := none }

/-- `predA` with only the (unfingerprinted) `status` field changed. -/
def predAstatus : Prediction := { predA with status := some "Delayed" }

/-- A sample 64-bit fingerprint function. -/
def hashFnB : List PredKey → Fin PyHashSpace :=
  fun _ => ⟨0, by norm_num [PyHashSpace]⟩

/-- Pairwise distinct route ids, one per natural number. -/
def routeOfNat (n : Nat) : String := String.mk (List.replicate n 'a')

/-- Predictions that differ pairwise in their fingerprinted `route_id`
field. -/
def collidePred (n : Nat) : Prediction :=
  { route_id := routeOfNat n, stop_id := "s", arrival_time := none,
    departure_time := none, direction_id := 0, status := none }

/-- A webhook that always answers 429 without a Retry-After header. -/
def resp429 : Nat → TRMNLResponse := fun _ => .tooManyRequests none

/-- A webhook answering 429 with `Retry-After: 5`, then 200. -/
def respD : Nat → TRMNLResponse :=
  fun n => if n = 0 then .tooManyRequests (some (some 5)) else .ok

/-! ### Basic facts about the time/display model -/

/-- Parsing a rendered minute-of-day recovers it. -/
theorem timeStrToMin_strftimeIMp {m : Nat} (hm : m < 1440) :
    timeStrToMin (strftimeIMp m) = m := by
  simp only [timeStrToMin, strftimeIMp]
  split_ifs <;> simp_all <;> omega

/-- Re-dating a display string onto any day and re-rendering gives the same
display string, provided the string came from `fmtTime`. -/
theorem fmtTime_redate {t0 u : Time} :
    fmtTime (dayStart t0 + 60 * timeStrToMin (fmtTime u)) = fmtTime u := by
  have hm : minuteOfDay u < 1440 := Nat.mod_lt _ (by norm_num)
  have hps : timeStrToMin (fmtTime u) = minuteOfDay u :=
    timeStrToMin_strftimeIMp hm
  have : minuteOfDay (dayStart t0 + 60 * minuteOfDay u) = minuteOfDay u := by
    unfold minuteOfDay dayStart
    omega
  unfold fmtTime
  rw [timeStrToMin_strftimeIMp hm, this]

/-- In a `timeLe`-sorted list every key is bounded by the key of the last
element. -/
theorem timeLe_getLast {l : List (Time × TimeStr)} (hs : l.Sorted timeLe) :
    ∀ a ∈ l, ∀ x, l.getLast? = some x → a.1 ≤ x.1 := by
  induction l with
  | nil => intro a ha; simp at ha
  | cons b t ih =>
    intro a ha x hx
    match t with
    | [] =>
      simp at ha hx
      subst ha
      simp [hx]
    | c :: t' =>
      rw [List.getLast?_cons_cons] at hx
      have hs' : (c :: t').Sorted timeLe := hs.of_cons
      rcases List.mem_cons.mp ha with rfl | hmem
      · have hbc : timeLe a c := (List.sorted_cons.mp hs).1 c (by simp)
        have hcx : c.1 ≤ x.1 := ih hs' c (by simp) x hx
        exact Nat.le_trans hbc hcx
      · exact ih hs' a hmem x hx

/-! ### Facts about the real-time collection loop -/

/-- Every pair kept by `collectReal` is a re-dated input string, lies strictly
in the future, and was not previously seen. -/
theorem collectReal_mem {t0 now : Time} :
    ∀ {xs seen : List TimeStr} {p : Time × TimeStr},
      p ∈ collectReal t0 now xs seen →
      p.2 ∈ xs ∧ p.1 = dayStart t0 + 60 * timeStrToMin p.2 ∧ now < p.1 ∧
        p.2 ∉ seen := by
  intro xs
  induction xs with
  | nil => intro seen p h; simp [collectReal] at h
  | cons s rest ih =>
    intro seen p h
    rw [collectReal] at h
    split at h
    · obtain ⟨h1, h2, h3, h4⟩ := ih h
      exact ⟨List.mem_cons_of_mem _ h1, h2, h3, h4⟩
    · rename_i hpast
      split at h
      · obtain ⟨h1, h2, h3, h4⟩ := ih h
        exact ⟨List.mem_cons_of_mem _ h1, h2, h3, h4⟩
      · rename_i hseen
        rcases List.mem_cons.mp h with rfl | hmem
        · exact ⟨List.mem_cons_self _ _, rfl,
            not_le.mp hpast, hseen⟩
        · obtain ⟨h1, h2, h3, h4⟩ := ih hmem
          refine ⟨List.mem_cons_of_mem _ h1, h2, h3, fun hc => h4 ?_⟩
          exact List.mem_cons_of_mem _ hc

/-- The strings kept by `collectReal` are pairwise distinct. -/
theorem collectReal_nodup {t0 now : Time} :
    ∀ (xs seen : List TimeStr),
      ((collectReal t0 now xs seen).map (·.2)).Nodup := by
  intro xs
  induction xs with
  | nil => intro seen; simp [collectReal]
  | cons s rest ih =>
    intro seen
    rw [collectReal]
    split
    · exact ih seen
    · split
      · exact ih seen
      · simp only [List.map_cons, List.nodup_cons]
        refine ⟨fun hc => ?_, ih (s :: seen)⟩
        obtain ⟨q, hq, hq2⟩ := List.mem_map.mp hc
        have := (collectReal_mem hq).2.2.2
        exact this (hq2 ▸ List.mem_cons_self _ _)

/-! ### Facts about the scheduled-backfill loop -/

/-- Every pair kept by `collectSched` renders its own key, lies strictly in
the future, is strictly later than the latest live time when one exists, was
not previously seen, and comes from a schedule entry for this stop and
direction. -/
theorem collectSched_mem {cache : String → String} {now : Time}
    {stopName : String} {isOutbound : Bool} {latest : Option Time} :
    ∀ {scheds : List Schedule} {seen : List TimeStr} {p : Time × TimeStr},
      p ∈ collectSched cache now stopName isOutbound latest scheds seen →
      p.2 = fmtTime p.1 ∧ now < p.1 ∧
        (∀ lrt, latest = some lrt → lrt < p.1) ∧ p.2 ∉ seen ∧
        ∃ sch ∈ scheds, sch.departure_time = some p.1 ∧
          cache sch.stop_id = stopName ∧
          ((sch.direction_id == 0) = isOutbound) := by
  intro scheds
  induction scheds with
  | nil => intro seen p h; simp [collectSched] at h
  | cons sch rest ih =>
    intro seen p h
    rw [collectSched] at h
    have liftRest :
        (p ∈ collectSched cache now stopName isOutbound latest rest seen) →
        p.2 = fmtTime p.1 ∧ now < p.1 ∧
          (∀ lrt, latest = some lrt → lrt < p.1) ∧ p.2 ∉ seen ∧
          ∃ s ∈ sch :: rest, s.departure_time = some p.1 ∧
            cache s.stop_id = stopName ∧ ((s.direction_id == 0) = isOutbound) := by
      intro hrest
      obtain ⟨h1, h2, h3, h4, s, hs, hsp⟩ := ih hrest
      exact ⟨h1, h2, h3, h4, s, List.mem_cons_of_mem _ hs, hsp⟩
    split at h
    · exact liftRest h
    · rename_i d hd
      split at h
      · exact liftRest h
      · split at h
        · exact liftRest h
        · rename_i hname
          have hname' : cache sch.stop_id = stopName := not_not.mp hname
          split at h
          · rename_i hcond
            split at h
            · exact liftRest h
            · rename_i hpast
              split at h
              · rcases List.mem_cons.mp h with rfl | hmem
                · refine ⟨rfl, not_le.mp hpast, ?_, hcond.2, sch,
                    List.mem_cons_self _ _, hd, hname', hcond.1⟩
                  intro l hl
                  exact nomatch hl
                · obtain ⟨h1, h2, h3, h4, s, hs, hsp⟩ := ih hmem
                  refine ⟨h1, h2, h3, fun hc => h4 (List.mem_cons_of_mem _ hc),
                    s, List.mem_cons_of_mem _ hs, hsp⟩
              · rename_i lrt
                split at h
                · rename_i hgt
                  rcases List.mem_cons.mp h with rfl | hmem
                  · refine ⟨rfl, not_le.mp hpast, ?_, hcond.2, sch,
                      List.mem_cons_self _ _, hd, hname', hcond.1⟩
                    intro l hl
                    obtain rfl : lrt = l := by injection hl
                    exact hgt
                  · obtain ⟨h1, h2, h3, h4, s, hs, hsp⟩ := ih hmem
                    refine ⟨h1, h2, h3,
                      fun hc => h4 (List.mem_cons_of_mem _ hc),
                      s, List.mem_cons_of_mem _ hs, hsp⟩
                · exact liftRest h
          · exact liftRest h

/-- The strings kept by `collectSched` are pairwise distinct. -/
theorem collectSched_nodup {cache : String → String} {now : Time}
    {stopName : String} {isOutbound : Bool} {latest : Option Time} :
    ∀ (scheds : List Schedule) (seen : List TimeStr),
      ((collectSched cache now stopName isOutbound latest scheds seen).map
        (·.2)).Nodup := by
  intro scheds
  induction scheds with
  | nil => intro seen; simp [collectSched]
  | cons sch rest ih =>
    intro seen
    rw [collectSched]
    split
    · exact ih seen
    · split
      · exact ih seen
      · split
        · exact ih seen
        · split
          · split
            · exact ih seen
            · split
              · simp only [List.map_cons, List.nodup_cons]
                refine ⟨fun hc => ?_, ih _⟩
                obtain ⟨q, hq, hq2⟩ := List.mem_map.mp hc
                have := (collectSched_mem hq).2.2.2.1
                exact this (hq2 ▸ List.mem_cons_self _ _)
              · split
                · simp only [List.map_cons, List.nodup_cons]
                  refine ⟨fun hc => ?_, ih _⟩
                  obtain ⟨q, hq, hq2⟩ := List.mem_map.mp hc
                  have := (collectSched_mem hq).2.2.2.1
                  exact this (hq2 ▸ List.mem_cons_self _ _)
                · exact ih seen
          · exact ih seen

/-! ### The per-direction invariants -/

/-- Invariants of `combineDirection`: given well-formed live pairs (each
rendering its own key, in the future, with pairwise distinct strings), the
emitted pair list has at most `K = 3` entries, pairwise distinct strings,
keys in non-decreasing chronological order, each entry rendering its own key
and lying strictly in the future. -/
theorem combineDirection_spec {cache : String → String}
    {scheds : List Schedule} {now : Time} {stopName : String}
    {isOutbound : Bool} {realPairs ps : List (Time × TimeStr)}
    (hreal : ∀ p ∈ realPairs, p.2 = fmtTime p.1 ∧ now < p.1)
    (hnodup : (realPairs.map (·.2)).Nodup)
    (h : combineDirection cache scheds now stopName isOutbound realPairs = ps) :
    ps.length ≤ 3 ∧ (ps.map (·.2)).Nodup ∧
      (ps.map (·.1)).Sorted (· ≤ ·) ∧
      (∀ p ∈ ps, p.2 = fmtTime p.1) ∧ (∀ p ∈ ps, now < p.1) := by
  subst h
  unfold combineDirection
  simp only [MAX_PREDICTIONS_PER_DIRECTION]
  set sR := sortByTime realPairs with hsRdef
  set latest := sR.getLast?.map (·.1) with hlatest
  set seen := realPairs.map (·.2) with hseen
  set schedPairs :=
    collectSched cache now stopName isOutbound latest scheds seen with hschedP
  set sS := sortByTime schedPairs with hsSdef
  have hpermR : List.Perm sR realPairs := List.perm_insertionSort timeLe realPairs
  have hsortR : sR.Sorted timeLe := List.sorted_insertionSort timeLe realPairs
  have hpermS : List.Perm sS schedPairs := List.perm_insertionSort timeLe schedPairs
  have hsortS : sS.Sorted timeLe := List.sorted_insertionSort timeLe schedPairs
  have hRmem : ∀ p ∈ sR, p.2 = fmtTime p.1 ∧ now < p.1 := fun p hp =>
    hreal p (hpermR.mem_iff.mp hp)
  have hSmem : ∀ p ∈ sS, p.2 = fmtTime p.1 ∧ now < p.1 ∧ p.2 ∉ seen ∧
      (∀ lrt, latest = some lrt → lrt < p.1) := fun p hp => by
    obtain ⟨h1, h2, h3, h4, _⟩ := collectSched_mem (hpermS.mem_iff.mp hp)
    exact ⟨h1, h2, h4, h3⟩
  have hRnodup : (sR.map (·.2)).Nodup :=
    ((hpermR.map (·.2)).nodup_iff).mpr hnodup
  have hSnodup : (sS.map (·.2)).Nodup :=
    ((hpermS.map (·.2)).nodup_iff).mpr (collectSched_nodup scheds seen)
  have hcross : ∀ a ∈ sR, ∀ b ∈ sS, timeLe a b := by
    intro a ha b hb
    cases hlast : sR.getLast? with
    | none =>
      rw [List.getLast?_eq_none_iff] at hlast
      rw [hlast] at ha
      exact absurd ha (List.not_mem_nil a)
    | some x =>
      have hx : latest = some x.1 := by rw [hlatest, hlast]; rfl
      have hlt : x.1 < b.1 := (hSmem b hb).2.2.2 x.1 hx
      have hle : a.1 ≤ x.1 := timeLe_getLast hsortR a ha x hlast
      exact Nat.le_trans hle (Nat.le_of_lt hlt)
  have hdisj : (sR.map (·.2)).Disjoint ((sS.take (3 - sR.length)).map (·.2)) := by
    intro a haR haS
    obtain ⟨q, hq, hq2⟩ := List.mem_map.mp haS
    have hqS : q ∈ sS := (List.take_sublist _ _).mem hq
    have hnot : q.2 ∉ seen := (hSmem q hqS).2.2.1
    have : a ∈ realPairs.map (·.2) := (hpermR.map (·.2)).mem_iff.mp haR
    rw [← hq2] at this
    exact hnot this
  set combined := if sR.length < 3 then sR ++ sS.take (3 - sR.length) else sR
    with hcomb
  have hCnodup : (combined.map (·.2)).Nodup := by
    rw [hcomb]
    split
    · rw [List.map_append]
      exact List.Nodup.append hRnodup
        (List.Nodup.sublist (List.Sublist.map _ (List.take_sublist _ _))
          hSnodup) hdisj
    · exact hRnodup
  have hCsorted : combined.Pairwise timeLe := by
    rw [hcomb]
    split
    · rw [List.pairwise_append]
      exact ⟨hsortR, List.Pairwise.sublist (List.take_sublist _ _) hsortS,
        fun a ha b hb => hcross a ha b ((List.take_sublist _ _).mem hb)⟩
    · exact hsortR
  have hCmem : ∀ p ∈ combined, p.2 = fmtTime p.1 ∧ now < p.1 := by
    intro p hp
    rw [hcomb] at hp
    by_cases hc : sR.length < 3
    · rw [if_pos hc] at hp
      rcases List.mem_append.mp hp with hp | hp
      · exact hRmem p hp
      · have := hSmem p ((List.take_sublist _ _).mem hp)
        exact ⟨this.1, this.2.1⟩
    · rw [if_neg hc] at hp
      exact hRmem p hp
  refine ⟨?_, ?_, ?_, ?_, ?_⟩
  · exact List.length_take_le 3 combined
  · exact List.Nodup.sublist
      (List.Sublist.map _ (List.take_sublist 3 combined)) hCnodup
  · have hps : (combined.take 3).Pairwise timeLe :=
      List.Pairwise.sublist (List.take_sublist 3 combined) hCsorted
    exact (List.pairwise_map).mpr (hps.imp fun hab => hab)
  · intro p hp
    exact (hCmem p ((List.take_sublist 3 combined).mem hp)).1
  · intro p hp
    exact (hCmem p ((List.take_sublist 3 combined).mem hp)).2

/-- Every string in a prediction bucket was rendered by `fmtTime`. -/
theorem groupedTimes_range {cache : String → String} {preds : List Prediction}
    {stopName : String} {isOutbound : Bool} :
    ∀ s ∈ groupedTimes cache preds stopName isOutbound, ∃ u, s = fmtTime u := by
  intro s hs
  obtain ⟨p, _, hp⟩ := List.mem_map.mp hs
  exact ⟨_, hp.symm⟩

/-- `combineDirection_spec` lifted over the re-dating case split of
`directionPairs`. -/
theorem directionPairs_spec {cache : String → String}
    {scheds : List Schedule} {now : Time} {realStrs : List TimeStr}
    {stopName : String} {isOutbound : Bool} {ps : List (Time × TimeStr)}
    (hr : ∀ s ∈ realStrs, ∃ u, s = fmtTime u)
    (h : directionPairs cache scheds now realStrs stopName isOutbound =
      some ps) :
    ps.length ≤ 3 ∧ (ps.map (·.2)).Nodup ∧
      (ps.map (·.1)).Sorted (· ≤ ·) ∧
      (∀ p ∈ ps, p.2 = fmtTime p.1) ∧ (∀ p ∈ ps, now < p.1) := by
  unfold directionPairs at h
  split at h
  · exact absurd h (by simp)
  · injection h with h
    refine combineDirection_spec ?_ (collectReal_nodup _ _) h
    intro p hp
    obtain ⟨h1, h2, h3, _⟩ := collectReal_mem hp
    obtain ⟨u, hu⟩ := hr p.2 h1
    refine ⟨?_, h3⟩
    rw [h2, hu, fmtTime_redate]
  · injection h with h
    exact combineDirection_spec
      (fun p hp => absurd hp (List.not_mem_nil p)) (by simp) h

/-- A prediction resolving to "Unknown Stop", or to a name other than the
bucket's, never enters the bucket. -/
theorem groupedTimes_drop {cache : String → String} {p : Prediction}
    {l1 l2 : List Prediction} {stopName : String} {isOutbound : Bool}
    (hp : cache p.stop_id = "Unknown Stop" ∨ cache p.stop_id ≠ stopName) :
    groupedTimes cache (l1 ++ p :: l2) stopName isOutbound =
      groupedTimes cache (l1 ++ l2) stopName isOutbound := by
  have hcond : ((firstTime p).isSome && cache p.stop_id != "Unknown Stop"
      && cache p.stop_id == stopName
      && ((p.direction_id == 0) == isOutbound)) = false := by
    rcases hp with hp | hp <;> simp [hp]
  unfold groupedTimes
  rw [List.filter_append, List.filter_append, List.filter_cons, hcond]
  simp

/-- The main loop only looks at predictions through their buckets. -/
theorem buildStops_congr {cache : String → String} {scheds : List Schedule}
    {now : Time} {preds1 preds2 : List Prediction} :
    ∀ {names : List String} {i : Nat},
      (∀ name ∈ names, ∀ isOut : Bool,
        groupedTimes cache preds1 name isOut =
          groupedTimes cache preds2 name isOut) →
      buildStops cache scheds now preds1 i names =
        buildStops cache scheds now preds2 i names := by
  intro names
  induction names with
  | nil => intro i _; rw [buildStops, buildStops]
  | cons name rest ih =>
    intro i h
    rw [buildStops, buildStops,
      h name (List.mem_cons_self _ _) false,
      h name (List.mem_cons_self _ _) true,
      ih fun n hn d => h n (List.mem_cons_of_mem _ hn) d]

/-! ### Helpers for the empty-prediction run -/

/-- With no live strings to re-date, `directionPairs` never raises. -/
theorem directionPairs_nil_real {cache : String → String}
    {scheds : List Schedule} {now : Time} {stopName : String}
    {isOutbound : Bool} :
    directionPairs cache scheds now [] stopName isOutbound =
      some (combineDirection cache scheds now stopName isOutbound []) := by
  unfold directionPairs
  cases h : firstSchedDep scheds with
  | none => rfl
  | some t0 => rfl

/-- If every scheduled departure is at or before `now`, the backfill loop
keeps nothing. -/
theorem collectSched_all_past {cache : String → String} {now : Time}
    {stopName : String} {isOutbound : Bool} :
    ∀ {scheds : List Schedule},
      (∀ sch ∈ scheds, ∀ d, sch.departure_time = some d → d ≤ now) →
      ∀ (latest : Option Time) (seen : List TimeStr),
        collectSched cache now stopName isOutbound latest scheds seen = [] := by
  intro scheds
  induction scheds with
  | nil => intro _ latest seen; rw [collectSched]
  | cons sch rest ih =>
    intro h latest seen
    have hrest := fun s hs => h s (List.mem_cons_of_mem _ hs)
    rw [collectSched]
    split
    · exact ih hrest latest seen
    · rename_i d hd
      have hdle : d ≤ now := h sch (List.mem_cons_self _ _) d hd
      split_ifs <;> exact ih hrest latest seen

/-- With no live entries and only past schedules, a direction emits nothing. -/
theorem combineDirection_nil_of_past {cache : String → String}
    {scheds : List Schedule} {now : Time} {stopName : String}
    {isOutbound : Bool}
    (hpast : ∀ sch ∈ scheds, ∀ d, sch.departure_time = some d → d ≤ now) :
    combineDirection cache scheds now stopName isOutbound [] = [] := by
  simp only [combineDirection, MAX_PREDICTIONS_PER_DIRECTION]
  rw [collectSched_all_past hpast]
  rfl

/-- Shape of the output of the main loop on an empty prediction list: one
entry per requested stop, in order, and all-empty lists when no scheduled
departure lies in the future. -/
theorem buildStops_nil_preds {cache : String → String}
    {scheds : List Schedule} {now : Time} :
    ∀ (names : List String) (i : Nat),
      ∃ out, buildStops cache scheds now [] i names = some out ∧
        out.map (·.stop_name) = names ∧
        ((∀ sch ∈ scheds, ∀ d, sch.departure_time = some d → d ≤ now) →
          ∀ st ∈ out, st.inbound = [] ∧ st.outbound = []) := by
  intro names
  induction names with
  | nil =>
    intro i
    exact ⟨[], rfl, rfl, fun _ st hst => absurd hst (List.not_mem_nil st)⟩
  | cons name rest ih =>
    intro i
    obtain ⟨out, hout, hnames, hempty⟩ := ih (i + 1)
    refine ⟨ReconStop.mk ("stop_" ++ toString i) name
        ((combineDirection cache scheds now name false []).map (·.2))
        ((combineDirection cache scheds now name true []).map (·.2)) :: out,
      ?_, ?_, ?_⟩
    · rw [buildStops]
      have h1 : groupedTimes cache [] name false = [] := rfl
      have h2 : groupedTimes cache [] name true = [] := rfl
      unfold processDirection
      rw [h1, h2, directionPairs_nil_real, directionPairs_nil_real, hout]
      rfl
    · simp [hnames]
    · intro hpast st hst
      rcases List.mem_cons.mp hst with rfl | hst
      · constructor <;> simp [combineDirection_nil_of_past hpast]
      · exact hempty hpast st hst

/-! ### Helpers for the fingerprint -/

/-- The canonical sorted tuple lists of two prediction lists agree exactly
when their tuple multisets agree. -/
theorem prediction_tuples_eq_iff {l1 l2 : List Prediction} :
    prediction_tuples l1 = prediction_tuples l2 ↔
      List.Perm (l1.map predKey) (l2.map predKey) := by
  constructor
  · intro h
    unfold prediction_tuples at h
    have p1 : List.Perm (List.insertionSort (· ≤ ·) (l1.map predKey))
        (l1.map predKey) := List.perm_insertionSort _ _
    have p2 : List.Perm (List.insertionSort (· ≤ ·) (l2.map predKey))
        (l2.map predKey) := List.perm_insertionSort _ _
    refine p1.symm.trans ?_
    rw [h]
    exact p2
  · intro h
    unfold prediction_tuples
    exact List.eq_of_perm_of_sorted
      ((List.perm_insertionSort _ _).trans
        (h.trans (List.perm_insertionSort _ _).symm))
      (List.sorted_insertionSort _ _) (List.sorted_insertionSort _ _)

/-! ### Helpers for the delivery loop -/

/-- The loop makes at most `attempt + remaining` attempts in total. -/
theorem sendAttempts_attempts_le (resp : Nat → TRMNLResponse) :
    ∀ (remaining attempt : Nat) (sleeps : List Int),
      (sendAttempts resp remaining attempt sleeps).attempts ≤
        attempt + remaining := by
  intro remaining
  induction remaining with
  | zero =>
    intro attempt sleeps
    simp [sendAttempts, SendOutcome.attempts]
  | succ r ih =>
    intro attempt sleeps
    rw [sendAttempts]
    cases resp attempt with
    | ok => simp [SendOutcome.attempts]
    | tooManyRequests ra => exact (ih (attempt + 1) _).trans (by omega)
    | otherStatus => exact (ih (attempt + 1) _).trans (by omega)
    | exn => exact (ih (attempt + 1) _).trans (by omega)

/-! ### Claim theorems -/

/-- C2: the backfill loop accepts a scheduled departure only for the same
stop and direction, strictly in the future, strictly later than the latest
accepted live time when live entries exist (`latest = some lrt`), and with a
display value not already present; and, concretely, with no live predictions
and scheduled outbound departures at 10:00, 10:15, 10:30, the reconciled
outbound list is exactly those three times in that order (scenario B). -/
theorem claim_C2_backfill_rule_and_scenarioB :
    (∀ (cache : String → String) (now : Time) (stopName : String)
        (isOutbound : Bool) (latest : Option Time) (scheds : List Schedule)
        (seen : List TimeStr) (d : Time) (s : TimeStr),
        (d, s) ∈ collectSched cache now stopName isOutbound latest scheds seen →
        now < d ∧ s ∉ seen ∧ (∀ lrt, latest = some lrt → lrt < d) ∧
          ∃ sch ∈ scheds, sch.departure_time = some d ∧
            cache sch.stop_id = stopName ∧
            ((sch.direction_id == 0) = isOutbound)) ∧
      process_predictions cacheB schedOfB busOrderB 30000 [] =
        some scenarioBOut := by
  constructor
  · intro cache now stopName isOutbound latest scheds seen d s h
    obtain ⟨h1, h2, h3, h4, h5⟩ := collectSched_mem h
    exact ⟨h2, h4, h3, h5⟩
  · decide

/-- Witness for C2's backfill rule at a concrete accepted entry. -/
theorem claim_C2_witness :
    30000 < 36000 ∧ (⟨10, 0, false⟩ : TimeStr) ∉ ([] : List TimeStr) ∧
      (∀ lrt, (none : Option Time) = some lrt → lrt < 36000) ∧
      ∃ sch ∈ schedOfB "Orange", sch.departure_time = some 36000 ∧
        cacheB sch.stop_id = "Oak Grove" ∧ ((sch.direction_id == 0) = true) :=
  claim_C2_backfill_rule_and_scenarioB.1 cacheB 30000 "Oak Grove" true none
    (schedOfB "Orange") [] 36000 ⟨10, 0, false⟩ (by decide)

/-- C3: every entry the reconciler retains for a (stop, direction) carries a
comparison key strictly later than the evaluation instant `now`; entries
whose parsed timestamp is ≤ `now` are discarded. -/
theorem claim_C3_only_future_times_retained :
    ∀ (cache : String → String) (scheds : List Schedule) (now : Time)
      (preds : List Prediction) (stopName : String) (isOutbound : Bool)
      (ps : List (Time × TimeStr)),
      directionPairs cache scheds now
          (groupedTimes cache preds stopName isOutbound) stopName isOutbound =
        some ps →
      ∀ p ∈ ps, now < p.1 := by
  intro cache scheds now preds stopName isOutbound ps h p hp
  exact (directionPairs_spec groupedTimes_range h).2.2.2.2 p hp

/-- Witness for C3 at scenario B's outbound list. -/
theorem claim_C3_witness : (30000 : Nat) < 36000 :=
  claim_C3_only_future_times_retained cacheB (schedOfB "Orange") 30000 []
    "Oak Grove" true
    [(36000, ⟨10, 0, false⟩), (36900, ⟨10, 15, false⟩),
      (37800, ⟨10, 30, false⟩)]
    (by decide) (36000, ⟨10, 0, false⟩) (by decide)

/-- C4, counterexample: the claimed iff — the fingerprint differs exactly
when some (route, stop, departure, arrival, direction) tuple differs (read up
to reordering, as forced by the fingerprint's deliberate permutation
invariance) — holds for no 64-bit fingerprint function at all: whatever
seed-dependent `hash ∘ str` the program runs with, two snapshots with
different tuple multisets receive the same fingerprint, by pigeonhole over
the at most `2 ^ 64` hash values. -/
theorem claim_C4_counterexample :
    ¬ ∃ hashFn : List PredKey → Fin PyHashSpace,
      ∀ l1 l2 : List Prediction,
        (calculate_prediction_hash hashFn l1 ≠
            calculate_prediction_hash hashFn l2 ↔
          ¬ List.Perm (l1.map predKey) (l2.map predKey)) := by
  rintro ⟨hashFn, hiff⟩
  obtain ⟨i, j, hne, heq⟩ :=
    Fintype.exists_ne_map_eq_of_card_lt
      (fun i : Fin (PyHashSpace + 1) =>
        calculate_prediction_hash hashFn [collidePred i])
      (by rw [Fintype.card_fin, Fintype.card_fin]; exact Nat.lt_succ_self _)
  have hperm : List.Perm ([collidePred (i : Nat)].map predKey)
      ([collidePred (j : Nat)].map predKey) := by
    by_contra hnp
    exact (hiff _ _).mpr hnp heq
  simp only [List.map_cons, List.map_nil] at hperm
  have hkey : predKey (collidePred i) = predKey (collidePred j) := by
    have := List.perm_singleton.mp hperm
    simpa using this
  have hroute : routeOfNat i = routeOfNat j :=
    congrArg Prod.fst (toLex.injective hkey)
  have hij : (i : Nat) = (j : Nat) := by
    have hlen := congrArg (fun s => s.data.length) hroute
    simpa [routeOfNat] using hlen
  exact hne (Fin.ext hij)

/-- C4, amended: the fingerprint never changes without a field change — for
every 64-bit fingerprint function, snapshots with equal multisets of
(route, stop, departure, arrival, direction) tuples get equal fingerprints,
so a changed fingerprint always signals a changed field; and the canonical
sorted tuple list `prediction_tuples` that is hashed differs if and only if
at least one such field differs.  The converse for the compressed 64-bit
fingerprint itself holds only up to hash collisions, which the
counterexample shows are unavoidable. -/
theorem claim_C4_fingerprint_sound_and_tuples_complete :
    (∀ (hashFn : List PredKey → Fin PyHashSpace) (l1 l2 : List Prediction),
        List.Perm (l1.map predKey) (l2.map predKey) →
        calculate_prediction_hash hashFn l1 =
          calculate_prediction_hash hashFn l2) ∧
      ∀ l1 l2 : List Prediction,
        prediction_tuples l1 = prediction_tuples l2 ↔
          List.Perm (l1.map predKey) (l2.map predKey) := by
  constructor
  · intro hashFn l1 l2 h
    exact congrArg hashFn (prediction_tuples_eq_iff.mpr h)
  · intro l1 l2
    exact prediction_tuples_eq_iff

/-- Witness for the amended C4: a status-only change (an unfingerprinted
field) leaves the fingerprint unchanged. -/
theorem claim_C4_witness :
    calculate_prediction_hash hashFnB [predA] =
      calculate_prediction_hash hashFnB [predAstatus] :=
  claim_C4_fingerprint_sound_and_tuples_complete.1 hashFnB [predA]
    [predAstatus] (List.Perm.refl _)

/-- C5: for every realisation of the 64-bit string hash, the fingerprint is
invariant under permutation of the input list. -/
theorem claim_C5_fingerprint_permutation_invariant :
    ∀ (hashFn : List PredKey → Fin PyHashSpace) (l1 l2 : List Prediction),
      List.Perm l1 l2 →
      calculate_prediction_hash hashFn l1 =
        calculate_prediction_hash hashFn l2 :=
  fun hashFn _ _ h =>
    congrArg hashFn (prediction_tuples_eq_iff.mpr (h.map predKey))

/-- Witness for C5 on a two-element swap. -/
theorem claim_C5_witness :
    calculate_prediction_hash hashFnB [predA, predB] =
      calculate_prediction_hash hashFnB [predB, predA] :=
  claim_C5_fingerprint_permutation_invariant hashFnB [predA, predB]
    [predB, predA] (by decide)

/-- C6: `can_update` returns `false` exactly when, after the hour rollover
normalisation, the window count has reached the hourly cap or the elapsed
time since the recorded last send is below the minimum interval
(3600 / cap seconds); once the cap is reached it stays `false` while the
wall clock has not crossed into a new hour; and upon crossing an hour
boundary the window counter and last-send timestamp reset and it returns
`true` again. -/
theorem claim_C6_rate_limiter_can_send :
    ∀ (st : TRMNLRateLimiter) (now : Time),
      st.min_interval_seconds = 3600 / st.max_updates_per_hour →
      (((st.can_update now).1 = false ↔
          st.max_updates_per_hour ≤ (st.rollover now).updates_this_hour ∨
          ∃ l, (st.rollover now).last_update_time = some l ∧
            (now : Int) - (l : Int) <
              ((3600 / st.max_updates_per_hour : Nat) : Int)) ∧
        (st.max_updates_per_hour ≤ st.updates_this_hour →
          hourStartOf now ≤ st.hour_start → (st.can_update now).1 = false) ∧
        (0 < st.max_updates_per_hour → st.hour_start < hourStartOf now →
          st.can_update now =
            (true, { st with updates_this_hour := 0,
                             hour_start := hourStartOf now,
                             last_update_time := none }))) := by
  intro st now hmin
  have hmax : (st.rollover now).max_updates_per_hour =
      st.max_updates_per_hour := by
    unfold TRMNLRateLimiter.rollover
    split <;> rfl
  have hmin2 : (st.rollover now).min_interval_seconds =
      3600 / st.max_updates_per_hour := by
    unfold TRMNLRateLimiter.rollover
    split <;> simpa using hmin
  refine ⟨?_, ?_, ?_⟩
  · unfold TRMNLRateLimiter.can_update
    rw [hmax, hmin2]
    split
    · rename_i hcap
      exact ⟨fun _ => Or.inl hcap, fun _ => rfl⟩
    · rename_i hcap
      split
      · rename_i l hl
        split
        · rename_i hint
          exact ⟨fun _ => Or.inr ⟨l, hl, hint⟩, fun _ => rfl⟩
        · rename_i hint
          constructor
          · intro hfalse
            simp at hfalse
          · intro hor
            rcases hor with hcap2 | ⟨l2, hl2, hint2⟩
            · exact absurd hcap2 hcap
            · rw [hl] at hl2
              injection hl2 with e
              subst e
              exact absurd hint2 hint
      · rename_i hl
        constructor
        · intro hfalse
          simp at hfalse
        · intro hor
          rcases hor with hcap2 | ⟨l2, hl2, _⟩
          · exact absurd hcap2 hcap
          · rw [hl] at hl2
            exact nomatch hl2
  · intro hcap hle
    have hroll : st.rollover now = st := by
      unfold TRMNLRateLimiter.rollover
      rw [if_neg (not_lt.mpr hle)]
    unfold TRMNLRateLimiter.can_update
    rw [hroll, if_pos hcap]
  · intro hmaxpos hcross
    have hroll : st.rollover now =
        { st with updates_this_hour := 0, hour_start := hourStartOf now,
                  last_update_time := none } := by
      unfold TRMNLRateLimiter.rollover
      rw [if_pos hcross]
    unfold TRMNLRateLimiter.can_update
    rw [hroll, if_neg (not_le.mpr hmaxpos)]

/-- Witness for C6: a fresh limiter rolls over at the next hour and permits
an update. -/
theorem claim_C6_witness :
    (TRMNLRateLimiter.init 12 0).can_update 3600 =
      (true, TRMNLRateLimiter.mk 12 0 3600 300 none) :=
  (claim_C6_rate_limiter_can_send (TRMNLRateLimiter.init 12 0) 3600 rfl).2.2
    (by decide) (by decide)

/-- C7, counterexample: on repeated 429s without Retry-After the publisher
sleeps [1, 2, 4, 8] — there is no fifth 16-second wait, because no delay is
taken after the final (fifth) attempt. -/
theorem claim_C7_counterexample :
    update_trmnl_display resp429 = SendOutcome.failed 5 [1, 2, 4, 8] ∧
      (update_trmnl_display resp429).sleeps ≠ [1, 2, 4, 8, 16] := by
  constructor <;> decide

/-- C7, amended: when every attempt receives a 429 without Retry-After, the
backoff delays actually waited are 1, 2, 4, 8 seconds (each capped at 900;
no wait follows the final attempt), and for every response sequence the
number of delivery attempts never exceeds 5. -/
theorem claim_C7_amended_backoff :
    (∀ resp : Nat → TRMNLResponse,
        (∀ n, n < 5 → resp n = TRMNLResponse.tooManyRequests none) →
        update_trmnl_display resp = SendOutcome.failed 5 [1, 2, 4, 8]) ∧
      ∀ resp : Nat → TRMNLResponse,
        (update_trmnl_display resp).attempts ≤ 5 := by
  constructor
  · intro resp h
    have h0 := h 0 (by omega)
    have h1 := h 1 (by omega)
    have h2 := h 2 (by omega)
    have h3 := h 3 (by omega)
    have h4 := h 4 (by omega)
    simp [update_trmnl_display, sendAttempts, h0, h1, h2, h3, h4, backoffDelay]
  · intro resp
    exact sendAttempts_attempts_le resp 5 0 []

/-- Witness for the amended C7 on the all-429 webhook. -/
theorem claim_C7_witness :
    update_trmnl_display resp429 = SendOutcome.failed 5 [1, 2, 4, 8] ∧
      (update_trmnl_display resp429).attempts ≤ 5 :=
  ⟨claim_C7_amended_backoff.1 resp429 fun _ _ => rfl,
    claim_C7_amended_backoff.2 resp429⟩

/-- C8: a 429 whose Retry-After header parses as an integer `d` makes the
publisher wait exactly `d` seconds instead of the exponential delay; with a
200 on the next attempt this gives exactly one wait of `d` seconds and
exactly two delivery attempts. -/
theorem claim_C8_retry_after_preferred :
    ∀ (d : Int) (resp : Nat → TRMNLResponse),
      resp 0 = TRMNLResponse.tooManyRequests (some (some d)) →
      resp 1 = TRMNLResponse.ok →
      update_trmnl_display resp = SendOutcome.succeeded 2 [d] := by
  intro d resp h0 h1
  simp [update_trmnl_display, sendAttempts, h0, h1]

/-- Witness for C8 with `Retry-After: 5`. -/
theorem claim_C8_witness :
    update_trmnl_display respD = SendOutcome.succeeded 2 [5] :=
  claim_C8_retry_after_preferred 5 respD rfl rfl

/-- C9: a prediction whose stop id resolves to "Unknown Stop" (failed
lookup), or to a name outside the displayed stop order, contributes zero
entries to the reconciled output and raises no error: the output is the same
as if the prediction were absent (provided dropping it does not change which
route is selected from the head of the list). -/
theorem claim_C9_unresolvable_stop_dropped :
    ∀ (cache : String → String) (schedOf : String → List Schedule)
      (busOrder : String → List String) (now : Time)
      (l1 l2 : List Prediction) (p : Prediction),
      (cache p.stop_id = "Unknown Stop" ∨
        ∀ name ∈ (stopOrderFor busOrder (routeFor (l1 ++ l2))).take 12,
          cache p.stop_id ≠ name) →
      routeFor (l1 ++ p :: l2) = routeFor (l1 ++ l2) →
      process_predictions cache schedOf busOrder now (l1 ++ p :: l2) =
        process_predictions cache schedOf busOrder now (l1 ++ l2) := by
  intro cache schedOf busOrder now l1 l2 p hp hroute
  unfold process_predictions
  rw [hroute]
  exact buildStops_congr fun name hn _ =>
    groupedTimes_drop (hp.elim Or.inl fun h => Or.inr (h name hn))

/-- Witness for C9: a prediction at the unresolvable stop "zzz" leaves the
reconciled output unchanged. -/
theorem claim_C9_witness :
    process_predictions cacheB schedOfB busOrderB 30000 [pUnknown] =
      process_predictions cacheB schedOfB busOrderB 30000 [] :=
  claim_C9_unresolvable_stop_dropped cacheB schedOfB busOrderB 30000 [] []
    pUnknown (Or.inl (by decide)) (by decide)

/-- C10: on an empty prediction list `process_predictions` does not fail and
does not return an empty result: it defaults the route to "Orange", uses the
scheduled departures fetched for "Orange", and emits one entry per stop for
exactly the first 12 stops of the Orange stop order — with empty direction
lists when no scheduled departure lies strictly in the future. -/
theorem claim_C10_empty_predictions_default_orange :
    ∀ (cache : String → String) (schedOf : String → List Schedule)
      (busOrder : String → List String) (now : Time),
      ∃ out, process_predictions cache schedOf busOrder now [] = some out ∧
        out.map (·.stop_name) = orangeStops.take 12 ∧
        ((∀ sch ∈ schedOf "Orange", ∀ d, sch.departure_time = some d →
            d ≤ now) →
          ∀ st ∈ out, st.inbound = [] ∧ st.outbound = []) := by
  intro cache schedOf busOrder now
  obtain ⟨out, hout, hnames, hempty⟩ :=
    @buildStops_nil_preds cache (schedOf "Orange") now (orangeStops.take 12) 0
  exact ⟨out, hout, hnames, hempty⟩

/-- Witness for C10 at the scenario fixtures. -/
theorem claim_C10_witness :
    ∃ out, process_predictions cacheB schedOfB busOrderB 30000 [] =
        some out ∧
      out.map (·.stop_name) = orangeStops.take 12 ∧
      ((∀ sch ∈ schedOfB "Orange", ∀ d, sch.departure_time = some d →
          d ≤ 30000) →
        ∀ st ∈ out, st.inbound = [] ∧ st.outbound = []) :=
  claim_C10_empty_predictions_default_orange cacheB schedOfB busOrderB 30000

end TrmnlMbta
